import Mathlib

/-!
Verification development for the vim-sort-folds repository.

The canonical implementation embedded here is `src/python3/sort_folds/`
(version 0.3.0): the functions `sort_folds`, `walk_over_folds`,
`move_to_first_fold`, `present_result`, `perform_motion`, `get_fold_level`
and the class `Fold` from `__init__.py`, plus the class `VimFold` (with
`_Bounds` and `_clamp`) from `fold.py`.

The vim host (module `vim`) is an external collaborator of the repository.
It is modelled abstractly, following the interface the spec fixes in its
sections 4.1 and 6: a line buffer, a cursor position `(line, col)`, a
user-selected line range, a fold-level query `foldlevel(line)`, and the
motions the code executes (`zj`, `zo]z`, `zo[z`, `zXzC`, `{n}zo`).  Motions
may change the fold-view state and the cursor but never the buffer or the
selected range; fold-view commands are given as arbitrary functions of an
abstract view-state `V`, so the theorems quantify over every host behaviour
of that shape.  Membership `cursor in vim.current.range` is modelled as
interval membership of the line in the selection, per the spec's
`selection() -> (start, end)` interface.

Python-level conventions used throughout the embedding:
* list slices and element access follow Python semantics (negative indices
  wrap, slice bounds clamp);
* `sorted(..., key=...)` computes every key first and then performs a
  stable sort comparing keys with `<`; it is modelled by a stable insertion
  sort, which any stable sort by the same total preorder equals;
* string comparison `<` is code-point lexicographic; `str.lower()` lowers
  ASCII capitals (identical to Python's on the ASCII data used here);
* exceptions are modelled with `Except PyErr` / explicit error values.
  Python name resolution matters twice in this code base: a method body
  does not see its class's attributes unqualified, and evaluating an
  unbound name raises `NameError` at the moment of evaluation — before
  any subscript or comparison the surrounding expression would perform.
-/

set_option linter.unusedVariables false

namespace VimSortFolds

/-- Python element access `l[i]`: a negative index counts from the end;
an index outside the list raises `IndexError`, modelled as `none`. -/
def pyGetElem {α : Type} (l : List α) (i : Int) : Option α :=
  let j : Int := if i < 0 then (l.length : Int) + i else i
  if 0 ≤ j ∧ j < (l.length : Int) then l.get? j.toNat else none

/-- Normalisation of one Python slice bound against a list length:
negative bounds count from the end, then everything clamps to `[0, len]`. -/
def sliceIdx (len : Nat) (i : Int) : Nat :=
  if i < 0 then ((len : Int) + i).toNat else min i.toNat len

/-- Python slice read `l[i:j]` (step 1). -/
def pyGetSlice {α : Type} (l : List α) (i j : Int) : List α :=
  (l.take (sliceIdx l.length j)).drop (sliceIdx l.length i)

/-- Python slice assignment `l[i:j] = xs` (step 1): the removed region is
`[i', max i' j')` for the normalised bounds, and `xs` is spliced in. -/
def pySetSlice {α : Type} (l : List α) (i j : Int) (xs : List α) : List α :=
  let i0 := sliceIdx l.length i
  let j0 := max i0 (sliceIdx l.length j)
  l.take i0 ++ xs ++ l.drop j0

/-- Python string comparison `<` on the underlying code points:
lexicographic, a strict prefix comparing smaller. -/
def pyCharsLt : List Char → List Char → Bool
  | [], [] => false
  | [], _ :: _ => true
  | _ :: _, [] => false
  | a :: as, b :: bs =>
    if a.toNat < b.toNat then true
    else if b.toNat < a.toNat then false
    else pyCharsLt as bs

/-- Python string comparison `a < b`. -/
def pyStrLt (a b : String) : Bool := pyCharsLt a.data b.data

/-- One character of `str.lower()`: an ASCII capital letter gains 32;
Python's Unicode lowering agrees with this on the ASCII data handled
here. -/
def pyCharLower (c : Char) : Char :=
  if 65 ≤ c.toNat ∧ c.toNat ≤ 90 then Char.ofNat (c.toNat + 32) else c

/-- `str.lower()`. -/
def pyLower (s : String) : String := ⟨s.data.map pyCharLower⟩

/-- The error values the embedded code can raise: `IndexError` from an
out-of-range buffer access, `NameError` from evaluating an unbound
name. -/
inductive PyErr : Type
  | indexError : PyErr
  | nameError : PyErr
deriving DecidableEq, Repr

/-- The motions `sort_folds` ever executes against the host. -/
inductive Motion : Type
  /-- `zj`: move to the start of the next fold. -/
  | zj : Motion
  /-- `zo]z`: open the fold under the cursor, move to its end line. -/
  | zEnd : Motion
  /-- `zo[z`: open the fold under the cursor, move to its start line. -/
  | zPrev : Motion
  /-- `zXzC`: re-apply folds and close recursively (used by `present_result`). -/
  | zXzC : Motion

/-- Abstract vim host: each motion transforms an abstract fold-view state
`V` together with the cursor `(line, col)` and `foldlevel` may depend on
the view.  `nzo` is the `normal! {n}zo` command issued by `present_result`. -/
structure VimHost (V : Type) where
  zj : V → Nat × Nat → V × (Nat × Nat)
  zEnd : V → Nat × Nat → V × (Nat × Nat)
  zPrev : V → Nat × Nat → V × (Nat × Nat)
  zXzC : V → Nat × Nat → V × (Nat × Nat)
  nzo : Nat → V → Nat × Nat → V × (Nat × Nat)
  level : V → Nat → Nat

/-- The host state visible to the plugin: `vim.current.buffer` (a list of
lines, 0-based), `vim.current.window.cursor` (1-based line, column), the
fold-view state, and the invocation's selected range of lines. -/
structure VimState (V : Type) where
  buf : List String
  cur : Nat × Nat
  view : V
  rstart : Nat
  rend : Nat

/-- `perform_motion(motion)`: run the motion (if any) and report
`line(".")`, the line the cursor ends on. -/
def perform_motion {V : Type} (H : VimHost V) (m : Option Motion) (s : VimState V) :
    VimState V × Nat :=
  match m with
  | none => (s, s.cur.1)
  | some mo =>
    let f := match mo with
      | Motion.zj => H.zj
      | Motion.zEnd => H.zEnd
      | Motion.zPrev => H.zPrev
      | Motion.zXzC => H.zXzC
    let r := f s.view s.cur
    ({ s with view := r.1, cur := r.2 }, r.2.1)

/-- `get_fold_level(line_num)`: the `foldlevel(...)` query; it reads the
fold structure and does not move the cursor. -/
def get_fold_level {V : Type} (H : VimHost V) (s : VimState V) (line_num : Nat) : Nat :=
  H.level s.view line_num

/-- `line_num in vim.current.range`, modelled as interval membership of the
line in the user-selected range per the spec's host interface. -/
def in_vim_range {V : Type} (s : VimState V) (line_num : Nat) : Bool :=
  s.rstart ≤ line_num && line_num ≤ s.rend

/-- `move_to_first_fold()`: place the cursor at the first fold intersecting
the current range; `none` when no fold is found.  The second component is
the value of the Python variable `cursor` (a line number); note that in the
`else` branch the vim cursor itself stays where it was (the probe ran under
`cursor_restorer()`). -/
def move_to_first_fold {V : Type} (H : VimHost V) (s : VimState V) :
    VimState V × Option Nat :=
  let c := (perform_motion H none s).2
  if get_fold_level H s c = 0 then
    let r := perform_motion H (some Motion.zj) s
    if c = r.2 then (r.1, none)
    else (r.1, if in_vim_range r.1 r.2 then some r.2 else none)
  else
    let r := perform_motion H (some Motion.zPrev) s
    let s2 : VimState V := { r.1 with cur := s.cur }
    let c2 := if get_fold_level H s2 c = get_fold_level H s2 r.2 then r.2 else c
    (s2, if in_vim_range s2 c2 then some c2 else none)

/-- The body of `walk_over_folds`'s `while` loop, with the Python variable
`cursor` as the extra argument `c`.  Each span is
`(cursor, perform_motion('zo]z') + 1)`; the loop then advances with `zj`
and sets `at_end` when the new cursor equals the span's start or its fold
level differs from the level at the span's start; membership of the new
cursor in the current range is re-checked at the top of the next
iteration.  `fuel` bounds the number of iterations; `none` reports fuel
exhaustion (the Python loop has no such bound). -/
def walk_loop {V : Type} (H : VimHost V) :
    Nat → VimState V → Nat → Option (VimState V × List (Nat × Nat))
  | 0, _, _ => none
  | fuel + 1, s, c =>
    if in_vim_range s c then
      let r1 := perform_motion H (some Motion.zEnd) s
      let r2 := perform_motion H (some Motion.zj) r1.1
      if r2.2 = c ∨ get_fold_level H r2.1 r2.2 ≠ get_fold_level H r2.1 c then
        some (r2.1, [(c, r1.2 + 1)])
      else
        match walk_loop H fuel r2.1 r2.2 with
        | none => none
        | some (s', spans) => some (s', (c, r1.2 + 1) :: spans)
    else some (s, [])

/-- `walk_over_folds()`: yield `(start, end)` line-number ranges of the
folds intersecting the current range while moving vim's cursor. -/
def walk_over_folds {V : Type} (H : VimHost V) (fuel : Nat) (s : VimState V) :
    Option (VimState V × List (Nat × Nat)) :=
  let r := move_to_first_fold H s
  match r.2 with
  | none => some (r.1, [])
  | some c => walk_loop H fuel r.1 c

/-- The class `Fold` of `sort_folds/__init__.py`: a pair of 0-based buffer
indices, built from 1-based line numbers.  The source attribute `end` is
called `stop` here because `end` is a Lean keyword. -/
structure Fold where
  start : Int
  stop : Int
deriving DecidableEq, Repr

/-- `Fold.__init__(start_line_num, end_line_num)`. -/
def Fold.ofLineNums (start_line_num end_line_num : Nat) : Fold :=
  ⟨(start_line_num : Int) - 1, (end_line_num : Int) - 1⟩

/-- `Fold.get(index)`: the source body is
`return vim.current.buffer[self.start + i]`, while the parameter (and the
signature and docstring) name it `index`.  Python resolves `i` when the
body runs; no local, enclosing, module-level or builtin binding of `i`
exists, so evaluating `self.start + i` raises `NameError` on every call,
before any buffer access.  (The sibling draft `vim_fold.py` line 48 has
`self.start + index`.) -/
def Fold.get (f : Fold) (buf : List String) (index : Int) : Except PyErr String :=
  Except.error PyErr.nameError

/-- `Fold.__getitem__(buf)` - `buf[self.start:self.end]`. -/
def Fold.sliceOf (f : Fold) (buf : List String) : List String :=
  pyGetSlice buf f.start f.stop

/-- `Fold.__setitem__(buf, iterable)` - `buf[self.start:self.end] = iterable`. -/
def Fold.setSlice (f : Fold) (buf : List String) (xs : List String) : List String :=
  pySetSlice buf f.start f.stop xs

/-- The folds `sort_folds` builds from the walked ranges:
`[Fold(*r) for r in walk_over_folds()]`. -/
def initial_folds_of (spans : List (Nat × Nat)) : List Fold :=
  spans.map fun p => Fold.ofLineNums p.1 p.2

/-- The sort keys of `sorted(initial_folds, key=lambda f: f.get(key_index).lower())`:
CPython's `sorted` evaluates the key of every element first (in list
order), so the first `f.get` call — which always raises `NameError` —
aborts the sort whenever at least one fold was discovered; with no folds
the key function is never called. -/
def keys_of (buf : List String) (key_index : Int) :
    List Fold → Except PyErr (List (String × Fold))
  | [] => Except.ok []
  | f :: fs =>
    match Fold.get f buf key_index with
    | Except.error e => Except.error e
    | Except.ok line =>
      match keys_of buf key_index fs with
      | Except.error e => Except.error e
      | Except.ok rest => Except.ok ((pyLower line, f) :: rest)

/-- Insertion step of the stable sort: a new element goes after every
already-placed element whose key is strictly smaller, and before the first
element whose key is not — so elements with equal keys keep their original
relative order. -/
def py_sorted_insert (x : String × Fold) :
    List (String × Fold) → List (String × Fold)
  | [] => [x]
  | y :: ys =>
    if pyStrLt y.1 x.1 then y :: py_sorted_insert x ys
    else x :: y :: ys

/-- Python's `sorted` on decorated `(key, fold)` pairs: a stable sort
comparing keys with `<`.  Stable sorts by the same total preorder agree
extensionally, so this insertion sort models CPython's Timsort. -/
def py_sorted : List (String × Fold) → List (String × Fold)
  | [] => []
  | x :: xs => py_sorted_insert x (py_sorted xs)

/-- `sorted_folds` as computed inside `sort_folds`: decorate with the
lowercased key lines, stable-sort, undecorate.  An exception raised by
the key function propagates. -/
def sorted_folds_of (buf : List String) (key_index : Int) (folds : List Fold) :
    Except PyErr (List Fold) :=
  match keys_of buf key_index folds with
  | Except.error e => Except.error e
  | Except.ok keyed => Except.ok ((py_sorted keyed).map Prod.snd)

/-- The rewrite loop of `sort_folds`:
`for old_fold, new_fold in reversed(list(zip(initial_folds, sorted_folds)))`,
each step doing `old_fold[vim.current.buffer] = new_fold[buffer_copy]` —
the replacement text is always read from the immutable snapshot `snap`,
and always written at the position of the original (old) fold. -/
def rewrite_folds (snap : List String) (pairs : List (Fold × Fold))
    (buf : List String) : List String :=
  pairs.reverse.foldl (fun b p => p.1.setSlice b (p.2.sliceOf snap)) buf

/-- `present_result()`: `level = get_fold_level(perform_motion('zXzC'))`,
then `normal! {level}zo` when the level is non-zero.  Fold-view commands
only; the buffer is untouched. -/
def present_result {V : Type} (H : VimHost V) (s : VimState V) : VimState V :=
  let r := perform_motion H (some Motion.zXzC) s
  let lvl := get_fold_level H r.1 r.2
  if lvl ≠ 0 then
    let r2 := H.nzo lvl r.1.view r.1.cur
    { r.1 with view := r2.1, cur := r2.2 }
  else r.1

/-- `sort_folds(key_index)`: snapshot the buffer, discover the folds under
`cursor_restorer()` (whose `finally` restores the full `(line, col)`
cursor on every exit path), sort them by the lowercased key line — a step
that raises `NameError` whenever at least one fold was discovered,
because `Fold.get` always does — then rewrite the buffer in reverse span
order reading from the snapshot and present the result.  The result is
`none` on fuel exhaustion (a model artifact), otherwise the final host
state together with the exception that propagated out, if any. -/
def sort_folds {V : Type} (H : VimHost V) (fuel : Nat) (key_index : Int)
    (s0 : VimState V) : Option (VimState V × Option PyErr) :=
  let buffer_copy := s0.buf
  match walk_over_folds H fuel s0 with
  | none => none
  | some (s1, spans) =>
    let s2 : VimState V := { s1 with cur := s0.cur }
    let initial_folds := initial_folds_of spans
    match sorted_folds_of s2.buf key_index initial_folds with
    | Except.error e => some (s2, some e)
    | Except.ok sorted_folds =>
      let new_buf := rewrite_folds buffer_copy (initial_folds.zip sorted_folds) s2.buf
      let s3 : VimState V := { s2 with buf := new_buf }
      some (present_result H s3, none)

/-- The `_Bounds` enum of `fold.py`, describing which values are valid
indices into a fold's elements. -/
inductive Bounds : Type
  /-- `INDICES`: requires `-len(fold) <= value < len(fold)`. -/
  | indices : Bounds
  /-- `SIZES`: requires `-len(fold) <= value <= len(fold)`. -/
  | sizes : Bounds
  /-- `UNBOUNDED`: no requirement. -/
  | unbounded : Bounds
deriving DecidableEq, Repr

/-- The class `VimFold` of `fold.py`: 0-based buffer indices `_start`
(inclusive) and `_stop` (exclusive), named without the underscore here. -/
structure VimFold where
  start : Int
  stop : Int
deriving DecidableEq, Repr

/-- `len(fold) = self._stop - self._start`. -/
def VimFold.len (f : VimFold) : Int := f.stop - f.start

/-- `_Bounds.validate(self, fold, value)`: the source body tests `self is
INDICES`, `self is SIZES`, `self is UNBOUNDED` with bare names.  Those
spellings exist only as class attributes (`_Bounds.INDICES` etc.), which
a method body does not see unqualified, and no module-level or builtin
binding of them exists, so the very first test raises `NameError` on
every call; the intended interval checks
(`-len(fold) <= value < len(fold)` for `INDICES`, `... <= len(fold)` for
`SIZES`, no constraint for `UNBOUNDED`) are unreachable. -/
def Bounds.validate (b : Bounds) (f : VimFold) (value : Int) : Except PyErr Bool :=
  Except.error PyErr.nameError

/-- `VimFold.__init__(start, stop)`: raises `ValueError` (here `none`)
when `start > stop`; otherwise the fields are the line numbers minus one. -/
def VimFold.ofLineNums (start stop : Int) : Option VimFold :=
  if start > stop then none else some ⟨start - 1, stop - 1⟩

/-- `VimFold._clamp(index, bounds)`:
`if not bounds.validate(self, index): raise IndexError(...)`, then return
`self._start + min(max(index, -len(self)), len(self)) % (len(self) + 1)`
(Python `%` with a positive modulus agrees with `Int.emod`).  The call to
`validate` raises `NameError`, which propagates, so both the `IndexError`
branch and the arithmetic are unreachable. -/
def VimFold.clamp (f : VimFold) (index : Int) (bounds : Bounds) : Except PyErr Int :=
  match bounds.validate f index with
  | Except.error e => Except.error e
  | Except.ok false => Except.error PyErr.indexError
  | Except.ok true =>
    Except.ok (f.start + min (max index (-f.len)) f.len % (f.len + 1))

/-- `VimFold.__getitem__(key)` for an integer key:
`vim.current.buffer[self._clamp(key, _Bounds.INDICES)]`.  The exception
raised inside `_clamp` propagates; an out-of-buffer access would raise
`IndexError`. -/
def VimFold.getItemInt (f : VimFold) (buf : List String) (key : Int) :
    Except PyErr String :=
  match f.clamp key Bounds.indices with
  | Except.error e => Except.error e
  | Except.ok idx =>
    match pyGetElem buf idx with
    | some s => Except.ok s
    | none => Except.error PyErr.indexError

/-- Fold discovery as the spec words it (its section 4.2 step 3), with the
first stop condition as the code actually implements it: record the span,
advance with the next-fold motion, and stop — excluding the
just-advanced-to fold — exactly when the new cursor line equals the
recorded span's start line, or the new position falls outside the
selection, or its fold level differs from the level at the span's start. -/
def discover_spec {V : Type} (H : VimHost V) :
    Nat → VimState V → Nat → Option (VimState V × List (Nat × Nat))
  | 0, _, _ => none
  | fuel + 1, s, c =>
    let r1 := perform_motion H (some Motion.zEnd) s
    let r2 := perform_motion H (some Motion.zj) r1.1
    if r2.2 = c ∨ ¬ in_vim_range r2.1 r2.2 ∨
        get_fold_level H r2.1 r2.2 ≠ get_fold_level H r2.1 c then
      some (r2.1, [(c, r1.2 + 1)])
    else
      match discover_spec H fuel r2.1 r2.2 with
      | none => none
      | some (s', spans) => some (s', (c, r1.2 + 1) :: spans)

/-- The fold, if any, of a concrete flat fold table
`(first_line, last_line, level)` that encloses a line. -/
def foldAt (tbl : List (Nat × Nat × Nat)) (n : Nat) : Option (Nat × Nat × Nat) :=
  tbl.find? fun t => t.1 ≤ n && n ≤ t.2.1

/-- A concrete vim host over a flat fold table, used to evaluate the
theorems on explicit inputs: `zj` moves to the smallest fold start
strictly below the cursor line (and stays put when there is none), `]z`
moves to the end of the enclosing fold, `[z` to its start, and the
fold-view commands of `present_result` leave the cursor in place. -/
def mkHost (tbl : List (Nat × Nat × Nat)) : VimHost Unit where
  zj := fun v p =>
    match (tbl.filter fun t => p.1 < t.1).map (fun t => t.1) with
    | [] => (v, p)
    | a :: as => (v, (as.foldl min a, 0))
  zEnd := fun v p =>
    match foldAt tbl p.1 with
    | none => (v, p)
    | some t => (v, (t.2.1, 0))
  zPrev := fun v p =>
    match foldAt tbl p.1 with
    | none => (v, p)
    | some t => (v, (t.1, 0))
  zXzC := fun v p => (v, p)
  nzo := fun _ v p => (v, p)
  level := fun v n =>
    match foldAt tbl n with
    | none => 0
    | some t => t.2.2

/-! Concrete host instances, buffers and invocation states on which the
theorems below are evaluated.  In every state the cursor starts at line 1,
column 0, and the selected range is given by the last two fields. -/

/-- Scenario A: two 2-line folds at lines 2-3 and 4-5, key lines
`banana1` / `apple1` at key index 0. -/
def demoBufA : List String := ["A", "banana1", "banana2", "apple1", "apple2", "C"]

/-- Host for scenario A. -/
def demoHostA : VimHost Unit := mkHost [(2, 3, 1), (4, 5, 1)]

/-- Invocation state for scenario A, selection lines 1-4. -/
def demoStA : VimState Unit := ⟨demoBufA, (1, 0), (), 1, 4⟩

/-- Scenario B: two 2-line folds whose lines at offset 2 escape the fold
but stay inside the buffer. -/
def demoBufB : List String := ["A", "b1", "b2", "z1", "z2", "a"]

/-- Host for scenario B. -/
def demoHostB : VimHost Unit := mkHost [(2, 3, 1), (4, 5, 1)]

/-- Invocation state for scenario B, selection lines 1-4. -/
def demoStB : VimState Unit := ⟨demoBufB, (1, 0), (), 1, 4⟩

/-- Scenario C: a single one-line fold at line 2 in a 2-line buffer. -/
def demoBufC : List String := ["A", "x"]

/-- Host for scenario C. -/
def demoHostC : VimHost Unit := mkHost [(2, 2, 1)]

/-- Invocation state for scenario C, selection lines 1-2. -/
def demoStC : VimState Unit := ⟨demoBufC, (1, 0), (), 1, 2⟩

/-- Scenario D: one 3-line fold at lines 2-4 inside a wide selection, so
the failed `zj` advance from the fold's end line 4 goes undetected. -/
def demoBufD : List String :=
  ["A", "l2", "l3", "l4", "B", "C", "D", "E", "F", "G"]

/-- Host for scenario D. -/
def demoHostD : VimHost Unit := mkHost [(2, 4, 1)]

/-- Invocation state for scenario D, selection lines 1-10. -/
def demoStD : VimState Unit := ⟨demoBufD, (1, 0), (), 1, 10⟩

/-- Scenario E: a 1-line fold at line 2 and a 2-line fold at lines 4-5,
separated by the unfolded line `M` at line 3. -/
def demoBufE : List String := ["X", "b2", "M", "a4", "a5", "Y"]

/-- Host for scenario E. -/
def demoHostE : VimHost Unit := mkHost [(2, 2, 1), (4, 5, 1)]

/-- Invocation state for scenario E, selection lines 1-4. -/
def demoStE : VimState Unit := ⟨demoBufE, (1, 0), (), 1, 4⟩

/-- Scenario F: two 1-line folds at lines 2 and 3 whose key lines are
already in sorted order. -/
def demoBufF : List String := ["A", "a1", "b1"]

/-- Host for scenario F. -/
def demoHostF : VimHost Unit := mkHost [(2, 2, 1), (3, 3, 1)]

/-- Invocation state for scenario F, selection lines 1-3. -/
def demoStF : VimState Unit := ⟨demoBufF, (1, 0), (), 1, 3⟩

/-- Scenario G: key lines `Banana` and `apple`, exercising the
case-insensitive comparison. -/
def demoBufG : List String := ["A", "Banana", "x1", "apple", "x2", "C"]

/-- Host for scenario G. -/
def demoHostG : VimHost Unit := mkHost [(2, 3, 1), (4, 5, 1)]

/-- Invocation state for scenario G, selection lines 1-4. -/
def demoStG : VimState Unit := ⟨demoBufG, (1, 0), (), 1, 4⟩

/-- A 4-line buffer for exercising `VimFold` indexing. -/
def demoBufFold : List String := ["w", "x", "y", "z"]

/-- `VimFold(start_line_num=1, stop_line_num=3)`: 0-based `[0, 2)`, two
lines `w`, `x`. -/
def demoVimFold : VimFold := ⟨0, 2⟩

/-- The host state after fold discovery in scenario F. -/
def demoStF1 : VimState Unit := ⟨demoBufF, (3, 0), (), 1, 3⟩

/-- The host state after fold discovery in scenario A. -/
def demoStA1 : VimState Unit := ⟨demoBufA, (5, 0), (), 1, 4⟩

/-- The host state after fold discovery in scenario E. -/
def demoStE1 : VimState Unit := ⟨demoBufE, (5, 0), (), 1, 4⟩

/-- The host state of scenario A at the start of the walk loop (after
`move_to_first_fold` has moved to line 2). -/
def demoStA0 : VimState Unit := ⟨demoBufA, (2, 0), (), 1, 4⟩

/-- The host state of scenario D at the start of the walk loop. -/
def demoStD0 : VimState Unit := ⟨demoBufD, (2, 0), (), 1, 10⟩

/-- The fold-level function of scenario A's host (levels do not depend on
the view state). -/
def demoLvlA : Nat → Nat := (mkHost [(2, 3, 1), (4, 5, 1)]).level ()

/-- The final host state of scenario A's invocation: discovery ends at
line 5, the restorer puts the cursor back at `(1, 0)`, the key
computation raises, and the buffer is untouched. -/
def demoStA2 : VimState Unit := ⟨demoBufA, (1, 0), (), 1, 4⟩

/-- The final host state of scenario B's invocation. -/
def demoStB2 : VimState Unit := ⟨demoBufB, (1, 0), (), 1, 4⟩

/-- The final host state of scenario C's invocation. -/
def demoStC2 : VimState Unit := ⟨demoBufC, (1, 0), (), 1, 2⟩

/-- The final host state of scenario E's invocation. -/
def demoStE2 : VimState Unit := ⟨demoBufE, (1, 0), (), 1, 4⟩

/-- The final host state of scenario G's invocation. -/
def demoStG2 : VimState Unit := ⟨demoBufG, (1, 0), (), 1, 4⟩

/-- Scenario H: a buffer containing no folds at all. -/
def demoBufH : List String := ["A", "B"]

/-- Host for scenario H: an empty fold table. -/
def demoHostH : VimHost Unit := mkHost []

/-- Invocation state for scenario H, selection lines 1-2. -/
def demoStH : VimState Unit := ⟨demoBufH, (1, 0), (), 1, 2⟩

/-! ## Order facts for the Python string comparison -/

/-- The comparison relation under which `py_sorted` is sorted: the earlier
element's key is not greater than the later one's. -/
def keyLe (a b : String × Fold) : Prop := pyStrLt b.1 a.1 = false

instance : DecidableRel keyLe :=
  fun _ _ => inferInstanceAs (Decidable (_ = false))

theorem pyCharsLt_irrefl : ∀ a : List Char, pyCharsLt a a = false
  | [] => rfl
  | x :: xs => by
    simp only [pyCharsLt, lt_irrefl, if_false]
    exact pyCharsLt_irrefl xs

theorem pyCharsLt_asymm : ∀ a b : List Char,
    pyCharsLt a b = true → pyCharsLt b a = false
  | [], [] => fun h => absurd h (by simp [pyCharsLt])
  | [], _ :: _ => fun _ => rfl
  | _ :: _, [] => fun h => absurd h (by simp [pyCharsLt])
  | x :: xs, y :: ys => fun h => by
    simp only [pyCharsLt] at h ⊢
    rcases Nat.lt_trichotomy x.toNat y.toNat with hlt | heq | hgt
    · rw [if_neg (by omega), if_pos hlt]
    · rw [if_neg (by omega), if_neg (by omega)]
      rw [if_neg (by omega), if_neg (by omega)] at h
      exact pyCharsLt_asymm xs ys h
    · rw [if_neg (by omega), if_pos hgt] at h
      exact absurd h (by simp)

theorem pyCharsLt_le_trans : ∀ a b c : List Char,
    pyCharsLt b a = false → pyCharsLt c b = false → pyCharsLt c a = false
  | [], _, [] => fun _ _ => rfl
  | [], _, _ :: _ => fun _ _ => rfl
  | _ :: _, [], _ => fun hb _ => absurd hb (by simp [pyCharsLt])
  | _ :: _, _ :: _, [] => fun _ hc => absurd hc (by simp [pyCharsLt])
  | x :: xs, y :: ys, z :: zs => fun hb hc => by
    simp only [pyCharsLt] at hb hc ⊢
    by_cases h1 : y.toNat < x.toNat
    · rw [if_pos h1] at hb; exact absurd hb (by simp)
    · rw [if_neg h1] at hb
      by_cases h2 : z.toNat < y.toNat
      · rw [if_pos h2] at hc; exact absurd hc (by simp)
      · rw [if_neg h2] at hc
        rw [if_neg (show ¬ z.toNat < x.toNat by omega)]
        by_cases h3 : x.toNat < z.toNat
        · rw [if_pos h3]
        · rw [if_neg h3]
          rw [if_neg (show ¬ x.toNat < y.toNat by omega)] at hb
          rw [if_neg (show ¬ y.toNat < z.toNat by omega)] at hc
          exact pyCharsLt_le_trans xs ys zs hb hc

theorem pyStrLt_self_eq_false (a : String) : pyStrLt a a = false :=
  pyCharsLt_irrefl a.data

theorem pyStrLt_asymm {a b : String} (h : pyStrLt a b = true) : pyStrLt b a = false :=
  pyCharsLt_asymm a.data b.data h

theorem pyStrLt_le_trans {a b c : String} (hb : pyStrLt b a = false)
    (hc : pyStrLt c b = false) : pyStrLt c a = false :=
  pyCharsLt_le_trans a.data b.data c.data hb hc

/-! ## The stable sort: permutation, sortedness, stability, fixpoints -/

theorem py_sorted_insert_perm (x : String × Fold) :
    ∀ l, (py_sorted_insert x l).Perm (x :: l)
  | [] => List.Perm.refl _
  | y :: ys => by
    simp only [py_sorted_insert]
    split
    · exact (List.Perm.cons y (py_sorted_insert_perm x ys)).trans
        (List.Perm.swap x y ys)
    · exact List.Perm.refl _

theorem py_sorted_perm : ∀ l : List (String × Fold), (py_sorted l).Perm l
  | [] => List.Perm.refl _
  | x :: xs =>
    (py_sorted_insert_perm x (py_sorted xs)).trans
      (List.Perm.cons x (py_sorted_perm xs))

theorem mem_py_sorted_insert {z x : String × Fold} {l : List (String × Fold)}
    (h : z ∈ py_sorted_insert x l) : z = x ∨ z ∈ l := by
  have := (py_sorted_insert_perm x l).mem_iff.mp h
  simpa using this

theorem py_sorted_insert_pairwise (x : String × Fold) :
    ∀ l, l.Pairwise keyLe → (py_sorted_insert x l).Pairwise keyLe
  | [], _ => by simp [py_sorted_insert]
  | y :: ys, hp => by
    rcases List.pairwise_cons.mp hp with ⟨hy, hys⟩
    simp only [py_sorted_insert]
    split
    · rename_i hlt
      refine List.Pairwise.cons ?_ (py_sorted_insert_pairwise x ys hys)
      intro z hz
      rcases mem_py_sorted_insert hz with hzx | hzys
      · subst hzx; exact pyStrLt_asymm hlt
      · exact hy z hzys
    · rename_i hnlt
      have hxy : keyLe x y := by simpa [keyLe] using hnlt
      refine List.Pairwise.cons ?_ hp
      intro z hz
      rcases List.mem_cons.mp hz with hzy | hzys
      · subst hzy; exact hxy
      · exact pyStrLt_le_trans hxy (hy z hzys)

theorem py_sorted_pairwise : ∀ l : List (String × Fold), (py_sorted l).Pairwise keyLe
  | [] => List.Pairwise.nil
  | x :: xs => py_sorted_insert_pairwise x (py_sorted xs) (py_sorted_pairwise xs)

theorem py_sorted_insert_filter_eq {k : String} {x : String × Fold} (hx : x.1 = k) :
    ∀ l, (py_sorted_insert x l).filter (fun p => decide (p.1 = k)) =
      x :: l.filter (fun p => decide (p.1 = k))
  | [] => by simp [py_sorted_insert, hx]
  | y :: ys => by
    simp only [py_sorted_insert]
    split
    · rename_i hlt
      have hyk : ¬ y.1 = k := by
        intro hyk
        rw [show y.1 = x.1 from hyk.trans hx.symm, pyStrLt_self_eq_false x.1] at hlt
        exact absurd hlt (by simp)
      rw [List.filter_cons_of_neg (by simpa using hyk),
        List.filter_cons_of_neg (by simpa using hyk)]
      exact py_sorted_insert_filter_eq hx ys
    · rw [List.filter_cons_of_pos (by simpa using hx)]

theorem py_sorted_insert_filter_ne {k : String} {x : String × Fold} (hx : ¬ x.1 = k) :
    ∀ l, (py_sorted_insert x l).filter (fun p => decide (p.1 = k)) =
      l.filter (fun p => decide (p.1 = k))
  | [] => by simp [py_sorted_insert, hx]
  | y :: ys => by
    simp only [py_sorted_insert]
    split
    · by_cases hyk : y.1 = k
      · rw [List.filter_cons_of_pos (by simpa using hyk),
          List.filter_cons_of_pos (by simpa using hyk),
          py_sorted_insert_filter_ne hx ys]
      · rw [List.filter_cons_of_neg (by simpa using hyk),
          List.filter_cons_of_neg (by simpa using hyk)]
        exact py_sorted_insert_filter_ne hx ys
    · rw [List.filter_cons_of_neg (by simpa using hx)]

theorem py_sorted_filter (k : String) :
    ∀ l : List (String × Fold),
      (py_sorted l).filter (fun p => decide (p.1 = k)) =
        l.filter (fun p => decide (p.1 = k))
  | [] => rfl
  | x :: xs => by
    by_cases hx : x.1 = k
    · rw [show py_sorted (x :: xs) = py_sorted_insert x (py_sorted xs) from rfl,
        py_sorted_insert_filter_eq hx, py_sorted_filter k xs,
        List.filter_cons_of_pos (by simpa using hx)]
    · rw [show py_sorted (x :: xs) = py_sorted_insert x (py_sorted xs) from rfl,
        py_sorted_insert_filter_ne hx, py_sorted_filter k xs,
        List.filter_cons_of_neg (by simpa using hx)]

theorem py_sorted_of_pairwise : ∀ l : List (String × Fold),
    l.Pairwise keyLe → py_sorted l = l
  | [], _ => rfl
  | x :: xs, hp => by
    rcases List.pairwise_cons.mp hp with ⟨hx, hxs⟩
    show py_sorted_insert x (py_sorted xs) = x :: xs
    rw [py_sorted_of_pairwise xs hxs]
    cases xs with
    | nil => rfl
    | cons y ys =>
      have : pyStrLt y.1 x.1 = false := hx y (List.mem_cons_self y ys)
      simp [py_sorted_insert, this]

/-! ## Python slice facts -/

theorem sliceIdx_le (len : Nat) (i : Int) : sliceIdx len i ≤ len := by
  unfold sliceIdx; split <;> omega

theorem sliceIdx_of_nonneg_le {len : Nat} {i : Int} (h0 : 0 ≤ i)
    (h1 : i ≤ (len : Int)) : sliceIdx len i = i.toNat := by
  unfold sliceIdx
  rw [if_neg (by omega)]
  omega

/-- Writing a region's own content back into the region is the identity,
for arbitrary (even degenerate) slice bounds. -/
theorem pySetSlice_pyGetSlice_self {α : Type} (l : List α) (i j : Int) :
    pySetSlice l i j (pyGetSlice l i j) = l := by
  unfold pySetSlice pyGetSlice
  dsimp only
  rcases le_or_lt (sliceIdx l.length i) (sliceIdx l.length j) with h | h
  · rw [Nat.max_eq_right h]
    have e1 : l.take (sliceIdx l.length i) =
        (l.take (sliceIdx l.length j)).take (sliceIdx l.length i) := by
      rw [List.take_take, Nat.min_eq_left h]
    rw [e1, List.take_append_drop, List.take_append_drop]
  · have e2 : (l.take (sliceIdx l.length j)).drop (sliceIdx l.length i) = [] :=
      List.drop_eq_nil_of_le (by rw [List.length_take]; omega)
    rw [e2, Nat.max_eq_left (Nat.le_of_lt h), List.append_nil,
      List.take_append_drop]

theorem pyGetSlice_eq_take_drop {α : Type} (l : List α) {i j : Int}
    (h0 : 0 ≤ i) (hi : i ≤ (l.length : Int)) (h0j : 0 ≤ j)
    (hj : j ≤ (l.length : Int)) :
    pyGetSlice l i j = (l.take j.toNat).drop i.toNat := by
  unfold pyGetSlice
  rw [sliceIdx_of_nonneg_le h0 hi, sliceIdx_of_nonneg_le h0j hj]

theorem pySetSlice_eq_take_drop {α : Type} (l : List α) {i j : Int}
    (xs : List α) (h0 : 0 ≤ i) (hij : i ≤ j) (hj : j ≤ (l.length : Int)) :
    pySetSlice l i j xs = l.take i.toNat ++ xs ++ l.drop j.toNat := by
  unfold pySetSlice
  dsimp only
  rw [sliceIdx_of_nonneg_le h0 (le_trans hij hj),
    sliceIdx_of_nonneg_le (le_trans h0 hij) hj,
    Nat.max_eq_right (by omega)]

theorem pyGetSlice_length {α : Type} (l : List α) {i j : Int}
    (h0 : 0 ≤ i) (hij : i ≤ j) (hj : j ≤ (l.length : Int)) :
    (pyGetSlice l i j).length = j.toNat - i.toNat := by
  rw [pyGetSlice_eq_take_drop l h0 (le_trans hij hj) (le_trans h0 hij) hj,
    List.length_drop, List.length_take]
  omega

/-! ## Frame facts: motions and discovery never touch the buffer or the
selected range -/

theorem perform_motion_frame {V : Type} (H : VimHost V) (m : Option Motion)
    (s : VimState V) :
    (perform_motion H m s).1.buf = s.buf ∧
      (perform_motion H m s).1.rstart = s.rstart ∧
      (perform_motion H m s).1.rend = s.rend := by
  cases m with
  | none => exact ⟨rfl, rfl, rfl⟩
  | some mo => exact ⟨rfl, rfl, rfl⟩

theorem move_to_first_fold_frame {V : Type} (H : VimHost V) (s : VimState V) :
    (move_to_first_fold H s).1.buf = s.buf ∧
      (move_to_first_fold H s).1.rstart = s.rstart ∧
      (move_to_first_fold H s).1.rend = s.rend := by
  unfold move_to_first_fold
  dsimp only
  split_ifs <;> exact ⟨rfl, rfl, rfl⟩

theorem walk_loop_frame {V : Type} (H : VimHost V) :
    ∀ fuel (s : VimState V) c s' spans,
      walk_loop H fuel s c = some (s', spans) →
        s'.buf = s.buf ∧ s'.rstart = s.rstart ∧ s'.rend = s.rend
  | 0, s, c => by intro s' spans h; exact absurd h (by simp [walk_loop])
  | fuel + 1, s, c => by
    intro s' spans h
    simp only [walk_loop] at h
    split at h
    · split at h
      · simp only [Option.some_inj, Prod.mk.injEq] at h
        rcases h with ⟨rfl, rfl⟩
        exact ⟨rfl, rfl, rfl⟩
      · split at h
        · exact absurd h (by simp)
        · rename_i s'' spans' hrec
          simp only [Option.some_inj, Prod.mk.injEq] at h
          rcases h with ⟨rfl, rfl⟩
          rcases walk_loop_frame H fuel _ _ _ _ hrec with ⟨hb2, hrs2, hre2⟩
          exact ⟨hb2, hrs2, hre2⟩
    · simp only [Option.some_inj, Prod.mk.injEq] at h
      rcases h with ⟨rfl, rfl⟩
      exact ⟨rfl, rfl, rfl⟩

theorem walk_over_folds_frame {V : Type} (H : VimHost V) (fuel : Nat)
    (s : VimState V) (s' : VimState V) (spans : List (Nat × Nat))
    (h : walk_over_folds H fuel s = some (s', spans)) :
    s'.buf = s.buf ∧ s'.rstart = s.rstart ∧ s'.rend = s.rend := by
  unfold walk_over_folds at h
  dsimp only at h
  rcases move_to_first_fold_frame H s with ⟨hb, hrs, hre⟩
  cases hm : (move_to_first_fold H s).2 with
  | none =>
    rw [hm] at h
    dsimp only at h
    simp only [Option.some_inj, Prod.mk.injEq] at h
    rcases h with ⟨rfl, rfl⟩
    exact ⟨hb, hrs, hre⟩
  | some c =>
    rw [hm] at h
    dsimp only at h
    rcases walk_loop_frame H fuel _ c s' spans h with ⟨hb', hrs', hre'⟩
    exact ⟨hb'.trans hb, hrs'.trans hrs, hre'.trans hre⟩

/-! ## Inversion facts for the key computation -/

theorem keys_of_nil (buf : List String) (ki : Int) :
    keys_of buf ki [] = Except.ok [] := rfl

theorem keys_of_cons_name_error (buf : List String) (ki : Int) (f : Fold)
    (fs : List Fold) :
    keys_of buf ki (f :: fs) = Except.error PyErr.nameError := rfl

theorem sorted_folds_of_nil (buf : List String) (ki : Int) :
    sorted_folds_of buf ki [] = Except.ok [] := rfl

theorem sorted_folds_of_cons_name_error (buf : List String) (ki : Int)
    (f : Fold) (fs : List Fold) :
    sorted_folds_of buf ki (f :: fs) = Except.error PyErr.nameError := rfl

theorem sorted_folds_of_ok_inv (buf : List String) (ki : Int)
    (folds sf : List Fold)
    (h : sorted_folds_of buf ki folds = Except.ok sf) :
    folds = [] ∧ sf = [] := by
  cases folds with
  | nil =>
    refine ⟨rfl, ?_⟩
    rw [sorted_folds_of_nil] at h
    exact (Except.ok.inj h).symm
  | cons f fs =>
    rw [sorted_folds_of_cons_name_error] at h
    exact Except.noConfusion h

/-! ## Unfolding facts for `sort_folds` -/

theorem present_result_buf {V : Type} (H : VimHost V) (s : VimState V) :
    (present_result H s).buf = s.buf := by
  unfold present_result
  dsimp only
  split <;> rfl

theorem present_result_cur {V : Type} (H : VimHost V)
    (h1 : ∀ v p, (H.zXzC v p).2 = p) (h2 : ∀ n v p, (H.nzo n v p).2 = p)
    (s : VimState V) : (present_result H s).cur = s.cur := by
  unfold present_result
  dsimp only
  split
  · rw [h2]
    show (H.zXzC s.view s.cur).2 = s.cur
    exact h1 s.view s.cur
  · show (H.zXzC s.view s.cur).2 = s.cur
    exact h1 s.view s.cur

theorem sort_folds_of_keys_error {V : Type} (H : VimHost V) (fuel : Nat)
    (key : Int) (s0 s1 : VimState V) (spans : List (Nat × Nat)) (e : PyErr)
    (hw : walk_over_folds H fuel s0 = some (s1, spans))
    (hs : sorted_folds_of s1.buf key (initial_folds_of spans) = Except.error e) :
    sort_folds H fuel key s0 = some ({ s1 with cur := s0.cur }, some e) := by
  unfold sort_folds
  rw [hw]
  dsimp only
  rw [hs]

theorem sort_folds_of_keys_ok {V : Type} (H : VimHost V) (fuel : Nat)
    (key : Int) (s0 s1 : VimState V) (spans : List (Nat × Nat))
    (sf : List Fold)
    (hw : walk_over_folds H fuel s0 = some (s1, spans))
    (hs : sorted_folds_of s1.buf key (initial_folds_of spans) = Except.ok sf) :
    sort_folds H fuel key s0 =
      some (present_result H
        { s1 with
            cur := s0.cur,
            buf := rewrite_folds s0.buf ((initial_folds_of spans).zip sf) s1.buf },
        none) := by
  unfold sort_folds
  rw [hw]
  dsimp only
  rw [hs]

/-- Whenever discovery produces at least one span, the key computation
raises `NameError` before any comparison and `sort_folds` propagates it,
the restorer having already put the cursor back. -/
theorem sort_folds_name_error {V : Type} (H : VimHost V) (fuel : Nat)
    (key : Int) (s0 s1 : VimState V) (p : Nat × Nat) (ps : List (Nat × Nat))
    (hw : walk_over_folds H fuel s0 = some (s1, p :: ps)) :
    sort_folds H fuel key s0 =
      some ({ s1 with cur := s0.cur }, some PyErr.nameError) :=
  sort_folds_of_keys_error H fuel key s0 s1 (p :: ps) PyErr.nameError hw rfl

/-- On every exit of `sort_folds` the buffer is byte-identical to the
initial buffer: with at least one discovered fold the key computation
raises `NameError` before the rewrite loop runs, and with none the
rewrite loop has an empty pair list. -/
theorem sort_folds_buf_eq {V : Type} (H : VimHost V) (fuel : Nat) (key : Int)
    (s0 s' : VimState V) (e : Option PyErr)
    (h : sort_folds H fuel key s0 = some (s', e)) : s'.buf = s0.buf := by
  unfold sort_folds at h
  cases hw : walk_over_folds H fuel s0 with
  | none => rw [hw] at h; exact absurd h (by simp)
  | some r =>
    obtain ⟨s1, spans⟩ := r
    have hb := (walk_over_folds_frame H fuel s0 s1 spans hw).1
    rw [hw] at h
    dsimp only at h
    cases hs : sorted_folds_of s1.buf key (initial_folds_of spans) with
    | error e2 =>
      rw [hs] at h
      simp only [Option.some_inj, Prod.mk.injEq] at h
      rcases h with ⟨rfl, _⟩
      exact hb
    | ok sf =>
      rw [hs] at h
      simp only [Option.some_inj, Prod.mk.injEq] at h
      rcases h with ⟨rfl, _⟩
      obtain ⟨hnil, hsf⟩ :=
        sorted_folds_of_ok_inv s1.buf key (initial_folds_of spans) sf hs
      rw [present_result_buf]
      show rewrite_folds s0.buf ((initial_folds_of spans).zip sf) s1.buf = s0.buf
      rw [hnil, hsf, hb]
      rfl

/-! ## The rewrite loop -/

theorem rewrite_folds_foldr (snap : List String) (pairs : List (Fold × Fold))
    (buf : List String) :
    rewrite_folds snap pairs buf =
      pairs.foldr (fun p b => p.1.setSlice b (p.2.sliceOf snap)) buf := by
  unfold rewrite_folds
  rw [List.foldl_reverse]

theorem mem_zip_self {α : Type} : ∀ (l : List α) (p : α × α),
    p ∈ l.zip l → p.1 = p.2
  | [], p, h => absurd h (List.not_mem_nil p)
  | x :: xs, p, h => by
    simp only [List.zip_cons_cons] at h
    rcases List.mem_cons.mp h with rfl | h'
    · rfl
    · exact mem_zip_self xs p h'

theorem foldr_rewrite_id (snap : List String) :
    ∀ pairs : List (Fold × Fold), (∀ p ∈ pairs, p.1 = p.2) →
      pairs.foldr (fun p b => p.1.setSlice b (p.2.sliceOf snap)) snap = snap
  | [], _ => rfl
  | p :: rest, h => by
    simp only [List.foldr_cons]
    rw [foldr_rewrite_id snap rest (fun q hq => h q (List.mem_cons_of_mem p hq))]
    have hp : p.1 = p.2 := h p (List.mem_cons_self p rest)
    rw [← hp]
    exact pySetSlice_pyGetSlice_self snap p.1.start p.1.stop

theorem rewrite_folds_self (snap : List String) (folds : List Fold) :
    rewrite_folds snap (folds.zip folds) snap = snap := by
  rw [rewrite_folds_foldr]
  exact foldr_rewrite_id snap (folds.zip folds) (mem_zip_self folds)

/-! ## Claims -/

/-- C7: on every exit path of `sort_folds` — the zero-fold path that
completes normally, and the error path taken whenever at least one fold
was discovered (the `NameError` raised during the key computation) — the
cursor position of the resulting host state equals its exact
pre-invocation value.  Discovery runs under `cursor_restorer()`, whose
`finally` restores the cursor before `sorted()` is evaluated, so the
error propagates with the cursor already restored.  The two hypotheses
record vim's documented behaviour of the fold-view commands
`zX`/`zC`/`zo` used by `present_result` after the restorer closed: they
change how folds are displayed but do not move the cursor. -/
theorem claim_C7_cursor_restoration {V : Type} (H : VimHost V)
    (h1 : ∀ v p, (H.zXzC v p).2 = p) (h2 : ∀ n v p, (H.nzo n v p).2 = p)
    (fuel : Nat) (key : Int) (s0 s' : VimState V) (e : Option PyErr)
    (h : sort_folds H fuel key s0 = some (s', e)) : s'.cur = s0.cur := by
  unfold sort_folds at h
  cases hw : walk_over_folds H fuel s0 with
  | none => rw [hw] at h; exact absurd h (by simp)
  | some r =>
    obtain ⟨s1, spans⟩ := r
    rw [hw] at h
    dsimp only at h
    cases hs : sorted_folds_of s1.buf key (initial_folds_of spans) with
    | error e2 =>
      rw [hs] at h
      simp only [Option.some_inj, Prod.mk.injEq] at h
      rcases h with ⟨rfl, rfl⟩
      rfl
    | ok sf =>
      rw [hs] at h
      simp only [Option.some_inj, Prod.mk.injEq] at h
      rcases h with ⟨rfl, rfl⟩
      rw [present_result_cur H h1 h2]

/-- Witness for C7: scenario A's invocation ends on the `NameError` path
and its final cursor equals the initial cursor `(1, 0)`. -/
theorem claim_C7_witness :
    sort_folds demoHostA 10 0 demoStA = some (demoStA2, some PyErr.nameError) ∧
      demoStA2.cur = demoStA.cur :=
  ⟨rfl, claim_C7_cursor_restoration demoHostA (fun v p => rfl) (fun n v p => rfl)
    10 0 demoStA demoStA2 (some PyErr.nameError) rfl⟩

/-- C10 counterexample: for the two-line fold `VimFold(1, 3)` over the
buffer `[w, x, y, z]` and the in-range index `1`, the claim's formula
says `fold[1]` returns the buffer line at `start + (1 mod 2) = 1`, i.e.
`x` — but the code raises `NameError` instead of returning any line:
`_clamp` calls `_Bounds.validate`, whose body compares `self` against the
unbound bare name `INDICES`. -/
theorem claim_C10_counterexample :
    VimFold.ofLineNums 1 3 = some demoVimFold ∧
    pyGetElem demoBufFold (demoVimFold.start + 1 % demoVimFold.len) = some "x" ∧
    VimFold.getItemInt demoVimFold demoBufFold 1 = Except.error PyErr.nameError ∧
    ¬ (Except.error PyErr.nameError = (Except.ok "x" : Except PyErr String)) :=
  ⟨rfl, by decide, rfl, fun h => Except.noConfusion h⟩

/-- C10 (amended): every integer indexing `fold[i]` of a `VimFold` — in
range or out of range — raises `NameError`: `__getitem__` calls
`_clamp(key, _Bounds.INDICES)`, `_clamp` calls `_Bounds.validate`, and
`validate`'s body reads the unbound bare name `INDICES`, so no buffer
line is ever returned and the documented `IndexError` is never raised. -/
theorem claim_C10_vimfold_indexing (f : VimFold) (buf : List String) (i : Int) :
    f.getItemInt buf i = Except.error PyErr.nameError := rfl

/-- C4 counterexample: in scenario B discovery finds two 2-line folds and
the invocation uses `key_index = 2`, out of bounds for both folds' line
counts; the claim says the designated `IndexError`-equivalent is raised,
but the error that propagates is `NameError` — raised by the unbound
name `i` in `Fold.get` before any bounds question could arise.  (The
buffer is indeed left unmodified.) -/
theorem claim_C4_counterexample :
    (walk_over_folds demoHostB 10 demoStB).map (fun r => r.2) =
      some [(2, 4), (4, 6)] ∧
    (initial_folds_of [(2, 4), (4, 6)]).all
      (fun f => decide (f.stop - f.start ≤ 2)) = true ∧
    sort_folds demoHostB 10 2 demoStB = some (demoStB2, some PyErr.nameError) ∧
    ¬ (some PyErr.nameError = some PyErr.indexError) ∧
    demoStB2.buf = demoStB.buf :=
  ⟨rfl, by decide, rfl, by decide, rfl⟩

/-- C4 (amended): whenever discovery finds at least one fold — whether
`key_index` is in bounds for the folds or not — `sort_folds` raises
`NameError` during the key computation, before any buffer region is
rewritten, and leaves both the buffer and the cursor unmodified;
`IndexError` is never raised and no bounds check ever runs, because the
unbound name `i` in `Fold.get` is evaluated first. -/
theorem claim_C4_error_handling {V : Type} (H : VimHost V) (fuel : Nat)
    (key : Int) (s0 s1 : VimState V) (p : Nat × Nat) (ps : List (Nat × Nat))
    (hw : walk_over_folds H fuel s0 = some (s1, p :: ps)) :
    ∃ s', sort_folds H fuel key s0 = some (s', some PyErr.nameError) ∧
      s'.buf = s0.buf ∧ s'.cur = s0.cur := by
  have hb := (walk_over_folds_frame H fuel s0 s1 (p :: ps) hw).1
  exact ⟨{ s1 with cur := s0.cur },
    sort_folds_name_error H fuel key s0 s1 p ps hw, hb, rfl⟩

/-- Witness for C4 (amended) at scenario B with the out-of-bounds
`key_index = 2`. -/
theorem claim_C4_witness :
    walk_over_folds demoHostB 10 demoStB =
      some (⟨demoBufB, (5, 0), (), 1, 4⟩, [(2, 4), (4, 6)]) ∧
    ∃ s', sort_folds demoHostB 10 2 demoStB = some (s', some PyErr.nameError) ∧
      s'.buf = demoStB.buf ∧ s'.cur = demoStB.cur :=
  ⟨rfl, claim_C4_error_handling demoHostB 10 2 demoStB
    ⟨demoBufB, (5, 0), (), 1, 4⟩ (2, 4) [(4, 6)] rfl⟩

/-- C5 counterexample: in scenario C the selection contains exactly one
fold and the in-bounds `key_index = 0` names its only line, yet the
invocation is not a silent no-op: `sorted` still evaluates the key of a
singleton list, `Fold.get` raises `NameError`, and `sort_folds` signals
that error (the buffer is left byte-identical). -/
theorem claim_C5_counterexample :
    (walk_over_folds demoHostC 10 demoStC).map (fun r => r.2) = some [(2, 3)] ∧
    sort_folds demoHostC 10 0 demoStC = some (demoStC2, some PyErr.nameError) ∧
    demoStC2.buf = demoStC.buf :=
  ⟨rfl, rfl, rfl⟩

/-- C5 (amended): a selection in which discovery finds no fold at all is
a silent no-op — no error and a byte-identical buffer.  With one or more
discovered folds, already sorted or not, the invocation instead raises
`NameError` from the key computation; the buffer is still left
byte-identical, so of the claim only the "signals no error" half fails,
and only outside the zero-fold case. -/
theorem claim_C5_noop_or_name_error {V : Type} (H : VimHost V) (fuel : Nat)
    (key : Int) (s0 s1 : VimState V) (spans : List (Nat × Nat))
    (hw : walk_over_folds H fuel s0 = some (s1, spans)) :
    (spans = [] →
      ∃ s', sort_folds H fuel key s0 = some (s', none) ∧ s'.buf = s0.buf) ∧
    (spans ≠ [] →
      ∃ s', sort_folds H fuel key s0 = some (s', some PyErr.nameError) ∧
        s'.buf = s0.buf) := by
  have hb := (walk_over_folds_frame H fuel s0 s1 spans hw).1
  constructor
  · intro hnil
    subst hnil
    refine ⟨_, sort_folds_of_keys_ok H fuel key s0 s1 [] [] hw rfl, ?_⟩
    rw [present_result_buf]
    show rewrite_folds s0.buf ((initial_folds_of []).zip []) s1.buf = s0.buf
    rw [hb]
    rfl
  · intro hne
    cases spans with
    | nil => exact absurd rfl hne
    | cons p ps =>
      exact ⟨_, sort_folds_name_error H fuel key s0 s1 p ps hw, hb⟩

/-- Witness for C5 (amended): scenario H has no folds and completes as a
silent no-op; scenario F's two already-sorted folds end in `NameError`
with the buffer untouched. -/
theorem claim_C5_witness :
    walk_over_folds demoHostH 10 demoStH = some (demoStH, []) ∧
    (∃ s', sort_folds demoHostH 10 0 demoStH = some (s', none) ∧
      s'.buf = demoStH.buf) ∧
    walk_over_folds demoHostF 10 demoStF = some (demoStF1, [(2, 3), (3, 4)]) ∧
    (∃ s', sort_folds demoHostF 10 0 demoStF = some (s', some PyErr.nameError) ∧
      s'.buf = demoStF.buf) :=
  ⟨rfl,
    (claim_C5_noop_or_name_error demoHostH 10 0 demoStH demoStH [] rfl).1 rfl,
    rfl,
    (claim_C5_noop_or_name_error demoHostF 10 0 demoStF demoStF1
      [(2, 3), (3, 4)] rfl).2 (by decide)⟩

/-- C3 (code bug): the claimed stable case-insensitive sort never
happens.  In scenario G the discovered folds are keyed `Banana` and
`apple`, so the claimed order would put the `apple` fold first; but
`sorted(initial_folds, key=lambda f: f.get(key_index).lower())` raises
`NameError` on the very first key — the body of `Fold.get` reads the
unbound name `i` — so no comparison is ever made, no order is computed,
and `sort_folds` propagates the error with the buffer untouched. -/
theorem claim_C3_sort_never_computed :
    (walk_over_folds demoHostG 10 demoStG).map (fun r => r.2) =
      some [(2, 4), (4, 6)] ∧
    keys_of demoBufG 0 (initial_folds_of [(2, 4), (4, 6)]) =
      Except.error PyErr.nameError ∧
    sort_folds demoHostG 10 0 demoStG = some (demoStG2, some PyErr.nameError) ∧
    demoStG2.buf = demoStG.buf :=
  ⟨rfl, rfl, rfl, rfl⟩

/-- C1 (code bug): the rewrite step the claim describes is unreachable.
In scenario A discovery produces the two spans `(2,4)` and `(4,6)`, but
computing the sort keys calls `Fold.get`, whose body reads the unbound
name `i` and raises `NameError`; `sorted` never returns, the
reversed-zip rewrite loop never runs, and `sort_folds` ends with the
buffer still equal to its snapshot and the propagated error instead of
performing the claimed last-to-first snapshot rewrite. -/
theorem claim_C1_rewrite_unreachable :
    (walk_over_folds demoHostA 10 demoStA).map (fun r => r.2) =
      some [(2, 4), (4, 6)] ∧
    Fold.get (Fold.ofLineNums 2 4) demoBufA 0 = Except.error PyErr.nameError ∧
    sort_folds demoHostA 10 0 demoStA = some (demoStA2, some PyErr.nameError) ∧
    demoStA2.buf = demoStA.buf :=
  ⟨rfl, rfl, rfl, rfl⟩

/-- C2: on every invocation of `sort_folds` and every exit path — the
zero-fold completion as well as the `NameError` exit taken whenever a
fold was discovered — the buffer's total line count is unchanged and the
multiset of discovered fold line-blocks is preserved.  Both hold for the
degenerate reason that the code never mutates the buffer at all: the key
computation raises `NameError` before the rewrite loop whenever at least
one fold exists, and with none the rewrite loop has nothing to write, so
the final buffer is byte-identical to the initial one (third
conjunct). -/
theorem claim_C2_permutation_invariant {V : Type} (H : VimHost V) (fuel : Nat)
    (key : Int) (s0 s1 : VimState V) (spans : List (Nat × Nat))
    (s' : VimState V) (e : Option PyErr)
    (hw : walk_over_folds H fuel s0 = some (s1, spans))
    (h : sort_folds H fuel key s0 = some (s', e)) :
    s'.buf.length = s0.buf.length ∧
    ((initial_folds_of spans).map (fun f => f.sliceOf s'.buf)).Perm
      ((initial_folds_of spans).map (fun f => f.sliceOf s0.buf)) ∧
    s'.buf = s0.buf := by
  have hb := sort_folds_buf_eq H fuel key s0 s' e h
  rw [hb]
  exact ⟨rfl, List.Perm.refl _, rfl⟩

/-- Witness for C2 at scenario A: the six-line buffer stays six lines,
byte-identical, across the `NameError` exit. -/
theorem claim_C2_witness :
    walk_over_folds demoHostA 10 demoStA = some (demoStA1, [(2, 4), (4, 6)]) ∧
    sort_folds demoHostA 10 0 demoStA = some (demoStA2, some PyErr.nameError) ∧
    (demoStA2.buf.length = demoStA.buf.length ∧
      ((initial_folds_of [(2, 4), (4, 6)]).map
        (fun f => f.sliceOf demoStA2.buf)).Perm
        ((initial_folds_of [(2, 4), (4, 6)]).map
          (fun f => f.sliceOf demoStA.buf)) ∧
      demoStA2.buf = demoStA.buf) :=
  ⟨rfl, rfl, claim_C2_permutation_invariant demoHostA 10 0 demoStA demoStA1
    [(2, 4), (4, 6)] demoStA2 (some PyErr.nameError) rfl rfl⟩

/-- C8: every buffer line that lies inside no discovered fold span keeps
identical content at its exact position across the invocation.  In the
faithful code this frame property holds in the strongest possible way:
`sort_folds` never mutates the buffer on any path (`NameError` precedes
the rewrite loop whenever a fold was discovered; with none the loop has
nothing to write), so every line — outside or inside the spans — is
untouched. -/
theorem claim_C8_outside_lines {V : Type} (H : VimHost V) (fuel : Nat)
    (key : Int) (s0 s1 : VimState V) (spans : List (Nat × Nat))
    (s' : VimState V) (e : Option PyErr)
    (hw : walk_over_folds H fuel s0 = some (s1, spans))
    (h : sort_folds H fuel key s0 = some (s', e)) :
    ∀ i : Nat, (initial_folds_of spans).all
        (fun f => decide (¬ (f.start ≤ (i : Int) ∧ (i : Int) < f.stop))) = true →
      s'.buf.get? i = s0.buf.get? i := by
  intro i hout
  rw [sort_folds_buf_eq H fuel key s0 s' e h]

/-- Witness for C8 at scenario E: the unfolded line `M` at 0-based index
2 lies in neither discovered span and keeps both its content and its
position. -/
theorem claim_C8_witness :
    walk_over_folds demoHostE 10 demoStE = some (demoStE1, [(2, 3), (4, 6)]) ∧
    sort_folds demoHostE 10 0 demoStE = some (demoStE2, some PyErr.nameError) ∧
    demoStE.buf.get? 2 = some "M" ∧
    demoStE2.buf.get? 2 = demoStE.buf.get? 2 :=
  ⟨rfl, rfl, rfl, claim_C8_outside_lines demoHostE 10 0 demoStE demoStE1
    [(2, 3), (4, 6)] demoStE2 (some PyErr.nameError) rfl rfl 2 (by decide)⟩

/-! ## The walk loop against the spec's single-stop-condition loop -/

theorem walk_loop_to_discover {V : Type} (H : VimHost V) :
    ∀ fuel (s : VimState V) c r, in_vim_range s c = true →
      walk_loop H fuel s c = some r → discover_spec H fuel s c = some r
  | 0, s, c, r => by
    intro _ h
    exact absurd h (by simp [walk_loop])
  | fuel + 1, s, c, r => by
    intro hin h
    simp only [walk_loop, hin, if_true] at h
    simp only [discover_spec]
    by_cases hne : (perform_motion H (some Motion.zj)
        (perform_motion H (some Motion.zEnd) s).1).2 = c
    · rw [if_pos (Or.inl hne)] at h
      rw [if_pos (Or.inl hne)]
      exact h
    · by_cases hlvl : get_fold_level H (perform_motion H (some Motion.zj)
          (perform_motion H (some Motion.zEnd) s).1).1
          (perform_motion H (some Motion.zj)
            (perform_motion H (some Motion.zEnd) s).1).2 =
          get_fold_level H (perform_motion H (some Motion.zj)
            (perform_motion H (some Motion.zEnd) s).1).1 c
      · rw [if_neg (by push_neg; exact ⟨hne, hlvl⟩)] at h
        by_cases hrin : in_vim_range
            (perform_motion H (some Motion.zj)
              (perform_motion H (some Motion.zEnd) s).1).1
            (perform_motion H (some Motion.zj)
              (perform_motion H (some Motion.zEnd) s).1).2 = true
        · rw [if_neg (by push_neg; exact ⟨hne, hrin, hlvl⟩)]
          cases hrec : walk_loop H fuel
              (perform_motion H (some Motion.zj)
                (perform_motion H (some Motion.zEnd) s).1).1
              (perform_motion H (some Motion.zj)
                (perform_motion H (some Motion.zEnd) s).1).2 with
          | none => rw [hrec] at h; exact absurd h (by simp)
          | some r2 =>
            rw [hrec] at h
            obtain ⟨s3, spans3⟩ := r2
            rw [walk_loop_to_discover H fuel _ _ (s3, spans3) hrin hrec]
            exact h
        · rw [if_pos (Or.inr (Or.inl hrin))]
          cases fuel with
          | zero => rw [walk_loop] at h; exact absurd h (by simp)
          | succ g =>
            rw [walk_loop, if_neg hrin] at h
            exact h
      · rw [if_pos (Or.inr hlvl)] at h
        rw [if_pos (Or.inr (Or.inr hlvl))]
        exact h

theorem discover_to_walk {V : Type} (H : VimHost V) :
    ∀ fuel (s : VimState V) c r, in_vim_range s c = true →
      discover_spec H fuel s c = some r → walk_loop H (fuel + 1) s c = some r
  | 0, s, c, r => by
    intro _ h
    exact absurd h (by simp [discover_spec])
  | fuel + 1, s, c, r => by
    intro hin h
    simp only [discover_spec] at h
    rw [walk_loop, if_pos hin]
    by_cases hne : (perform_motion H (some Motion.zj)
        (perform_motion H (some Motion.zEnd) s).1).2 = c
    · rw [if_pos (Or.inl hne)] at h
      rw [if_pos (Or.inl hne)]
      exact h
    · by_cases hlvl : get_fold_level H (perform_motion H (some Motion.zj)
          (perform_motion H (some Motion.zEnd) s).1).1
          (perform_motion H (some Motion.zj)
            (perform_motion H (some Motion.zEnd) s).1).2 =
          get_fold_level H (perform_motion H (some Motion.zj)
            (perform_motion H (some Motion.zEnd) s).1).1 c
      · by_cases hrin : in_vim_range
            (perform_motion H (some Motion.zj)
              (perform_motion H (some Motion.zEnd) s).1).1
            (perform_motion H (some Motion.zj)
              (perform_motion H (some Motion.zEnd) s).1).2 = true
        · rw [if_neg (by push_neg; exact ⟨hne, hrin, hlvl⟩)] at h
          rw [if_neg (by push_neg; exact ⟨hne, hlvl⟩)]
          cases hrec : discover_spec H fuel
              (perform_motion H (some Motion.zj)
                (perform_motion H (some Motion.zEnd) s).1).1
              (perform_motion H (some Motion.zj)
                (perform_motion H (some Motion.zEnd) s).1).2 with
          | none => rw [hrec] at h; exact absurd h (by simp)
          | some r2 =>
            rw [hrec] at h
            obtain ⟨s3, spans3⟩ := r2
            rw [discover_to_walk H fuel _ _ (s3, spans3) hrin hrec]
            exact h
        · rw [if_pos (Or.inr (Or.inl hrin))] at h
          rw [if_neg (by push_neg; exact ⟨hne, hlvl⟩)]
          rw [walk_loop, if_neg hrin]
          exact h
      · rw [if_pos (Or.inr (Or.inr hlvl))] at h
        rw [if_pos (Or.inr hlvl)]
        exact h

/-- C6 counterexample: in scenario D the single fold spans lines 2-4.
After the first span `(2, 5)` the cursor sits on the fold's end line 4,
and the `zj` advance fails — the cursor does not move — yet the iteration
does not stop: the code's at-end test compares the new cursor to the
span's START line (`cursor == start`), `4 = 2` is false and the fold
level matches, so a second (spurious, overlapping) span `(4, 5)` is
emitted.  "The motion failed to move the cursor" is therefore not one of
the code's stop conditions. -/
theorem claim_C6_counterexample :
    (perform_motion demoHostD (some Motion.zEnd) demoStD0).2 = 4 ∧
    (perform_motion demoHostD (some Motion.zj)
      (perform_motion demoHostD (some Motion.zEnd) demoStD0).1).2 = 4 ∧
    walk_loop demoHostD 10 demoStD0 2 =
      some (⟨demoBufD, (4, 0), (), 1, 10⟩, [(2, 5), (4, 5)]) ∧
    (walk_over_folds demoHostD 10 demoStD).map (fun r => r.2) =
      some [(2, 5), (4, 5)] :=
  ⟨rfl, rfl, rfl, rfl⟩

/-- C6 (amended): the fold-discovery iteration stops — excluding the
just-advanced-to fold — exactly when, after the next-fold advance, one of
three conditions holds: the new cursor LINE EQUALS THE PREVIOUS SPAN'S
START LINE (the code's proxy for a failed motion, which coincides with
"the motion failed to move the cursor" only when the advance ran from the
span's start line, e.g. for one-line folds; a failed advance from a
multi-line fold's end line is not detected), the new position is outside
the selection, or the fold level at the new position differs from the
level at the previous span's start.  Formally, the code's loop
(`walk_loop`) computes the same partial function as the spec-worded loop
with that single three-way stop condition (`discover_spec`); the fuel
offset accounts for the code re-testing the range at the top of the next
iteration. -/
theorem claim_C6_stop_conditions {V : Type} (H : VimHost V) (fuel : Nat)
    (s : VimState V) (c : Nat) (r : VimState V × List (Nat × Nat))
    (hin : in_vim_range s c = true) :
    (walk_loop H fuel s c = some r → discover_spec H fuel s c = some r) ∧
    (discover_spec H fuel s c = some r → walk_loop H (fuel + 1) s c = some r) :=
  ⟨walk_loop_to_discover H fuel s c r hin, discover_to_walk H fuel s c r hin⟩

/-- Witness for C6 (amended) at scenario A: the code loop and the
spec-worded loop produce the same two spans. -/
theorem claim_C6_witness :
    in_vim_range demoStA0 2 = true ∧
    walk_loop demoHostA 10 demoStA0 2 = some (demoStA1, [(2, 4), (4, 6)]) ∧
    discover_spec demoHostA 10 demoStA0 2 = some (demoStA1, [(2, 4), (4, 6)]) ∧
    walk_loop demoHostA 11 demoStA0 2 = some (demoStA1, [(2, 4), (4, 6)]) :=
  ⟨rfl, rfl,
    (claim_C6_stop_conditions demoHostA 10 demoStA0 2
      (demoStA1, [(2, 4), (4, 6)]) rfl).1 rfl,
    (claim_C6_stop_conditions demoHostA 10 demoStA0 2
      (demoStA1, [(2, 4), (4, 6)]) rfl).2
      ((claim_C6_stop_conditions demoHostA 10 demoStA0 2
        (demoStA1, [(2, 4), (4, 6)]) rfl).1 rfl)⟩

/-! ## Invariants of the discovered spans -/

theorem walk_loop_invariants {V : Type} (H : VimHost V) (lvl : Nat → Nat)
    (hE : ∀ v p, p.1 ≤ ((H.zEnd v p).2).1)
    (hJ : ∀ v p, p.1 ≤ ((H.zj v p).2).1)
    (hL : ∀ v n, H.level v n = lvl n) :
    ∀ fuel (s : VimState V) c s' spans, c ≤ s.cur.1 →
      walk_loop H fuel s c = some (s', spans) →
      (spans = [] ∨ ∃ e rest, spans = (c, e) :: rest) ∧
      (∀ sp ∈ spans, sp.1 < sp.2) ∧
      spans.Chain' (fun a b => a.2 ≤ b.1 + 1) ∧
      (∀ sp ∈ spans, lvl sp.1 = lvl c)
  | 0, s, c, s', spans => by
    intro _ h
    exact absurd h (by simp [walk_loop])
  | fuel + 1, s, c, s', spans => by
    intro hc h
    by_cases hin : in_vim_range s c = true
    · rw [walk_loop, if_pos hin] at h
      have he : s.cur.1 ≤ (perform_motion H (some Motion.zEnd) s).2 :=
        hE s.view s.cur
      have hc2 : (perform_motion H (some Motion.zEnd) s).2 ≤
          (perform_motion H (some Motion.zj)
            (perform_motion H (some Motion.zEnd) s).1).2 :=
        hJ (perform_motion H (some Motion.zEnd) s).1.view
          (perform_motion H (some Motion.zEnd) s).1.cur
      by_cases hstop : (perform_motion H (some Motion.zj)
          (perform_motion H (some Motion.zEnd) s).1).2 = c ∨
          get_fold_level H (perform_motion H (some Motion.zj)
            (perform_motion H (some Motion.zEnd) s).1).1
            (perform_motion H (some Motion.zj)
              (perform_motion H (some Motion.zEnd) s).1).2 ≠
          get_fold_level H (perform_motion H (some Motion.zj)
            (perform_motion H (some Motion.zEnd) s).1).1 c
      · rw [if_pos hstop] at h
        simp only [Option.some_inj, Prod.mk.injEq] at h
        rcases h with ⟨rfl, rfl⟩
        refine ⟨Or.inr ⟨_, [], rfl⟩, ?_, ?_, ?_⟩
        · intro sp hsp
          rcases List.mem_singleton.mp hsp with rfl
          show c < (perform_motion H (some Motion.zEnd) s).2 + 1
          omega
        · exact List.chain'_singleton _
        · intro sp hsp
          rcases List.mem_singleton.mp hsp with rfl
          rfl
      · rw [if_neg hstop] at h
        push_neg at hstop
        obtain ⟨hne, hlvleq⟩ := hstop
        cases hrec : walk_loop H fuel
            (perform_motion H (some Motion.zj)
              (perform_motion H (some Motion.zEnd) s).1).1
            (perform_motion H (some Motion.zj)
              (perform_motion H (some Motion.zEnd) s).1).2 with
        | none => rw [hrec] at h; exact absurd h (by simp)
        | some r2 =>
          obtain ⟨s3, spans3⟩ := r2
          rw [hrec] at h
          simp only [Option.some_inj, Prod.mk.injEq] at h
          rcases h with ⟨rfl, rfl⟩
          obtain ⟨hshape, hbnd, hch, hlv⟩ :=
            walk_loop_invariants H lvl hE hJ hL fuel _ _ s3 spans3 (le_refl _) hrec
          have h5 : lvl (perform_motion H (some Motion.zj)
              (perform_motion H (some Motion.zEnd) s).1).2 = lvl c := by
            have e1 : get_fold_level H (perform_motion H (some Motion.zj)
                (perform_motion H (some Motion.zEnd) s).1).1
                (perform_motion H (some Motion.zj)
                  (perform_motion H (some Motion.zEnd) s).1).2 =
                lvl (perform_motion H (some Motion.zj)
                  (perform_motion H (some Motion.zEnd) s).1).2 :=
              hL _ _
            have e2 : get_fold_level H (perform_motion H (some Motion.zj)
                (perform_motion H (some Motion.zEnd) s).1).1 c = lvl c :=
              hL _ _
            rw [← e1, ← e2]
            exact hlvleq
          refine ⟨Or.inr ⟨_, spans3, rfl⟩, ?_, ?_, ?_⟩
          · intro sp hsp
            rcases List.mem_cons.mp hsp with rfl | hsp'
            · show c < (perform_motion H (some Motion.zEnd) s).2 + 1
              omega
            · exact hbnd sp hsp'
          · rcases hshape with rfl | ⟨e2, rest2, rfl⟩
            · exact List.chain'_singleton _
            · refine List.chain'_cons.mpr ⟨?_, hch⟩
              show (perform_motion H (some Motion.zEnd) s).2 + 1 ≤
                (perform_motion H (some Motion.zj)
                  (perform_motion H (some Motion.zEnd) s).1).2 + 1
              omega
          · intro sp hsp
            rcases List.mem_cons.mp hsp with rfl | hsp'
            · rfl
            · exact (hlv sp hsp').trans h5
    · rw [walk_loop, if_neg hin] at h
      simp only [Option.some_inj, Prod.mk.injEq] at h
      rcases h with ⟨rfl, rfl⟩
      exact ⟨Or.inl rfl, by simp, List.chain'_nil, by simp⟩

theorem move_to_first_fold_cursor {V : Type} (H : VimHost V)
    (hP : ∀ v p, ((H.zPrev v p).2).1 ≤ p.1) (s : VimState V) (c : Nat)
    (h : (move_to_first_fold H s).2 = some c) :
    c ≤ (move_to_first_fold H s).1.cur.1 := by
  unfold move_to_first_fold at h ⊢
  dsimp only at h ⊢
  by_cases h0 : get_fold_level H s (perform_motion H none s).2 = 0
  · rw [if_pos h0] at h ⊢
    by_cases heq : (perform_motion H none s).2 =
        (perform_motion H (some Motion.zj) s).2
    · rw [if_pos heq] at h
      exact absurd h (by simp)
    · rw [if_neg heq] at h ⊢
      by_cases hr : in_vim_range (perform_motion H (some Motion.zj) s).1
          (perform_motion H (some Motion.zj) s).2 = true
      · rw [if_pos hr] at h
        obtain rfl := Option.some_inj.mp h
        exact le_refl _
      · rw [if_neg hr] at h
        exact absurd h (by simp)
  · rw [if_neg h0] at h ⊢
    by_cases hr : in_vim_range
        { (perform_motion H (some Motion.zPrev) s).1 with cur := s.cur }
        (if get_fold_level H
              { (perform_motion H (some Motion.zPrev) s).1 with cur := s.cur }
              (perform_motion H none s).2 =
            get_fold_level H
              { (perform_motion H (some Motion.zPrev) s).1 with cur := s.cur }
              (perform_motion H (some Motion.zPrev) s).2
          then (perform_motion H (some Motion.zPrev) s).2
          else (perform_motion H none s).2) = true
    · rw [if_pos hr] at h
      obtain rfl := Option.some_inj.mp h
      show (if _ then (perform_motion H (some Motion.zPrev) s).2
        else (perform_motion H none s).2) ≤ s.cur.1
      split
      · exact hP s.view s.cur
      · exact le_refl _
    · rw [if_neg hr] at h
      exact absurd h (by simp)

/-- C9 counterexample: scenario D's single 3-line fold at lines 2-4
yields the spans `(2, 5)` and `(4, 5)`: they are not disjoint (line 4
belongs to both half-open spans) and not contiguous (the first span ends
at 5 while the next starts at 4), refuting the claimed disjointness and
contiguity of one discovery pass's output. -/
theorem claim_C9_counterexample :
    (walk_over_folds demoHostD 10 demoStD).map (fun r => r.2) =
      some [(2, 5), (4, 5)] ∧
    ((2 : Nat) ≤ 4 ∧ (4 : Nat) < 5 ∧ (4 : Nat) ≤ 4 ∧ (4 : Nat) < 5) ∧
    ¬ ((5 : Nat) = 4) :=
  ⟨rfl, by decide, by decide⟩

/-- C9 (amended): under the host's documented motion directions (`]z`
does not move the cursor upward, `zj` does not move it upward, `[z` does
not move it downward) and a view-independent fold-level function, every
discovery pass yields spans with `start < end`, consecutive spans
overlapping by at most the single line `end - 1 = start'` (so `end ≤
start' + 1`; full disjointness fails exactly when a failed advance from a
multi-line fold's end emits the spurious span of the counterexample, and
gaps between folds break contiguity), and all spans share the fold level
of their start lines. -/
theorem claim_C9_span_invariants {V : Type} (H : VimHost V) (lvl : Nat → Nat)
    (hE : ∀ v p, p.1 ≤ ((H.zEnd v p).2).1)
    (hJ : ∀ v p, p.1 ≤ ((H.zj v p).2).1)
    (hP : ∀ v p, ((H.zPrev v p).2).1 ≤ p.1)
    (hL : ∀ v n, H.level v n = lvl n)
    (fuel : Nat) (s s' : VimState V) (spans : List (Nat × Nat))
    (hw : walk_over_folds H fuel s = some (s', spans)) :
    (∀ sp ∈ spans, sp.1 < sp.2) ∧
    spans.Chain' (fun a b => a.2 ≤ b.1 + 1) ∧
    (∀ sp ∈ spans, ∀ sp2 ∈ spans, lvl sp.1 = lvl sp2.1) := by
  unfold walk_over_folds at hw
  dsimp only at hw
  cases hm : (move_to_first_fold H s).2 with
  | none =>
    rw [hm] at hw
    simp only [Option.some_inj, Prod.mk.injEq] at hw
    rcases hw with ⟨rfl, rfl⟩
    exact ⟨by simp, List.chain'_nil, by simp⟩
  | some c =>
    rw [hm] at hw
    have hcur := move_to_first_fold_cursor H hP s c hm
    obtain ⟨hshape, hbnd, hch, hlv⟩ :=
      walk_loop_invariants H lvl hE hJ hL fuel _ c s' spans hcur hw
    exact ⟨hbnd, hch, fun sp hsp sp2 hsp2 => (hlv sp hsp).trans (hlv sp2 hsp2).symm⟩

/-! ## Motion directions of the concrete host -/

theorem le_foldl_min (p : Nat) :
    ∀ (l : List Nat) (a : Nat), p ≤ a → (∀ x ∈ l, p ≤ x) → p ≤ l.foldl min a
  | [], a, ha, _ => ha
  | x :: xs, a, ha, hl =>
    le_foldl_min p xs (min a x)
      (le_min ha (hl x (List.mem_cons_self x xs)))
      (fun y hy => hl y (List.mem_cons_of_mem x hy))

theorem mkHost_zEnd_le (tbl : List (Nat × Nat × Nat)) :
    ∀ (v : Unit) (p : Nat × Nat), p.1 ≤ (((mkHost tbl).zEnd) v p).2.1 := by
  intro v p
  show p.1 ≤ (match foldAt tbl p.1 with
    | none => (v, p)
    | some t => (v, (t.2.1, 0))).2.1
  cases hf : foldAt tbl p.1 with
  | none => exact le_refl _
  | some t =>
    have hp := List.find?_some hf
    simp only [Bool.and_eq_true, decide_eq_true_eq] at hp
    exact hp.2

theorem mkHost_zPrev_le (tbl : List (Nat × Nat × Nat)) :
    ∀ (v : Unit) (p : Nat × Nat), (((mkHost tbl).zPrev) v p).2.1 ≤ p.1 := by
  intro v p
  show (match foldAt tbl p.1 with
    | none => (v, p)
    | some t => (v, (t.1, 0))).2.1 ≤ p.1
  cases hf : foldAt tbl p.1 with
  | none => exact le_refl _
  | some t =>
    have hp := List.find?_some hf
    simp only [Bool.and_eq_true, decide_eq_true_eq] at hp
    exact hp.1

theorem mkHost_zj_le (tbl : List (Nat × Nat × Nat)) :
    ∀ (v : Unit) (p : Nat × Nat), p.1 ≤ (((mkHost tbl).zj) v p).2.1 := by
  intro v p
  show p.1 ≤ (match (tbl.filter fun t : Nat × Nat × Nat => p.1 < t.1).map
      (fun t : Nat × Nat × Nat => t.1) with
    | [] => (v, p)
    | a :: as => (v, (as.foldl min a, 0))).2.1
  cases hls : (tbl.filter fun t : Nat × Nat × Nat => p.1 < t.1).map
      (fun t : Nat × Nat × Nat => t.1) with
  | nil => exact le_refl _
  | cons a as =>
    have hmem : ∀ x ∈ a :: as, p.1 < x := by
      intro x hx
      have hx2 : x ∈ (tbl.filter fun t : Nat × Nat × Nat => p.1 < t.1).map
          (fun t : Nat × Nat × Nat => t.1) := by
        rw [hls]; exact hx
      obtain ⟨t, ht, rfl⟩ := List.mem_map.mp hx2
      have hf := (List.mem_filter.mp ht).2
      simpa using hf
    exact le_foldl_min p.1 as a
      (Nat.le_of_lt (hmem a (List.mem_cons_self a as)))
      (fun x hx => Nat.le_of_lt (hmem x (List.mem_cons_of_mem a hx)))

/-- Witness for C9 (amended) at scenario A: the two spans `(2, 4)` and
`(4, 6)` satisfy `start < end`, the near-disjointness chain and the
shared fold level. -/
theorem claim_C9_witness :
    walk_over_folds demoHostA 10 demoStA = some (demoStA1, [(2, 4), (4, 6)]) ∧
    ((∀ sp ∈ ([(2, 4), (4, 6)] : List (Nat × Nat)), sp.1 < sp.2) ∧
      ([(2, 4), (4, 6)] : List (Nat × Nat)).Chain' (fun a b => a.2 ≤ b.1 + 1) ∧
      (∀ sp ∈ ([(2, 4), (4, 6)] : List (Nat × Nat)),
        ∀ sp2 ∈ ([(2, 4), (4, 6)] : List (Nat × Nat)),
          demoLvlA sp.1 = demoLvlA sp2.1)) :=
  ⟨rfl, claim_C9_span_invariants demoHostA demoLvlA
    (mkHost_zEnd_le [(2, 3, 1), (4, 5, 1)])
    (mkHost_zj_le [(2, 3, 1), (4, 5, 1)])
    (mkHost_zPrev_le [(2, 3, 1), (4, 5, 1)])
    (fun v n => rfl) 10 demoStA demoStA1 [(2, 4), (4, 6)] rfl⟩

end VimSortFolds

